import Mathlib

/-!
Verification of `scripts/remove_screenshot_data.py`, a utility that nulls
out top-level `screenshot` fields in a JSON document and reports how many
non-null fields were replaced.

The embedding is shallow: parsed JSON documents are values of `JsonValue`
(objects are ordered association lists, matching Python dicts, whose keys
are unique and whose insertion order is preserved); the in-place mutation
performed by the script becomes a pure function returning the new document
together with the removal count; file input/output becomes explicit state
passing over an abstract filesystem mapping paths to file contents, and the
CPython `json.load` step is abstracted as a file either holding a valid
document or being invalid JSON with a parser diagnostic.
-/

/-- A parsed JSON value, as produced by `json.load`. Objects keep their
fields as an ordered association list, mirroring insertion-ordered Python
dicts. -/
inductive JsonValue where
  | null : JsonValue
  | bool (b : Bool) : JsonValue
  | num (n : Int) : JsonValue
  | str (s : String) : JsonValue
  | arr (items : List JsonValue) : JsonValue
  | obj (fields : List (String × JsonValue)) : JsonValue

/-- `isinstance(x, dict)` on a parsed JSON value. -/
def JsonValue.isObj : JsonValue → Bool
  | JsonValue.obj _ => true
  | _ => false

/-- Python dict key lookup on an ordered association list; `lookupKey k f`
is `some v` when `k` maps to `v` (`"k" in f` and `f[k]`), `none` when the
key is absent. -/
def lookupKey (k : String) : List (String × JsonValue) → Option JsonValue
  | [] => none
  | kv :: rest => if kv.1 = k then some kv.2 else lookupKey k rest

/-- The dict assignment `item["screenshot"] = None`: the entry keyed
`"screenshot"` is replaced by `None` in place (same position), every other
entry is untouched. -/
def setScreenshotNull (fields : List (String × JsonValue)) :
    List (String × JsonValue) :=
  fields.map (fun kv =>
    if kv.1 = "screenshot" then ("screenshot", JsonValue.null) else kv)

/-- The per-entry step of `remove_screenshots_from_json` (lines 35-38 and
42-45 of the script): on a dict containing key `"screenshot"`, count 1 if
the value `is not None`, then set it to `None` regardless; any other value
is left alone with count 0. -/
def stripItem : JsonValue → JsonValue × Nat
  | JsonValue.obj fields =>
      match lookupKey "screenshot" fields with
      | none => (JsonValue.obj fields, 0)
      | some JsonValue.null => (JsonValue.obj (setScreenshotNull fields), 0)
      | some _ => (JsonValue.obj (setScreenshotNull fields), 1)
  | v => (v, 0)

/-- The transform step of `remove_screenshots_from_json` (lines 30-45): a
list is processed element by element, a dict is processed directly, any
other shape passes through; the second component is `removed_count`. -/
def stripDoc : JsonValue → JsonValue × Nat
  | JsonValue.arr items =>
      (JsonValue.arr (items.map (fun x => (stripItem x).1)),
        (items.map (fun x => (stripItem x).2)).sum)
  | JsonValue.obj fields => stripItem (JsonValue.obj fields)
  | v => (v, 0)

/-- Content of a file on disk, from the point of view of `json.load`: it
either parses to a document or raises `json.JSONDecodeError` carrying a
diagnostic message. -/
inductive FileContent where
  | jsonText (doc : JsonValue) : FileContent
  | invalidText (diag : String) : FileContent

/-- Abstract filesystem: a map from paths to file contents; `none` means
the path does not exist. -/
def FileSystem : Type := String → Option FileContent

/-- Observable result of one invocation: the filesystem after the run, the
process exit status, the removal count on success, and the lines printed
to standard output. -/
structure ScriptResult where
  fs : FileSystem
  exitCode : Nat
  removed : Option Nat
  stdout : List String

/-- `remove_screenshots_from_json(input_file, output_file=None)` (lines
13-63): default the output path to the input path, read and parse the
input file (`FileNotFoundError` and `json.JSONDecodeError` print an error
and exit 1), transform the document, write the result to the output path,
and print the success report. -/
def removeScreenshotsFromJson (fs : FileSystem) (input_file : String)
    (output_file : Option String) : ScriptResult :=
  let out := output_file.getD input_file
  match fs input_file with
  | none =>
      { fs := fs, exitCode := 1, removed := none,
        stdout := ["Error: File " ++ input_file ++ " not found"] }
  | some (FileContent.invalidText diag) =>
      { fs := fs, exitCode := 1, removed := none,
        stdout := ["Error: Invalid JSON in " ++ input_file ++ ": " ++ diag] }
  | some (FileContent.jsonText data) =>
      let res := stripDoc data
      { fs := fun p => if p = out then some (FileContent.jsonText res.1) else fs p,
        exitCode := 0, removed := some res.2,
        stdout := ["Successfully processed " ++ input_file,
                   "Removed " ++ toString res.2 ++ " screenshot entries",
                   "Output written to " ++ out] }

/-- `main()` (lines 66-81): with fewer than two arguments print the usage
lines and exit 1; otherwise take `sys.argv[1]` as the input path and
`sys.argv[2]` (when present) as the output path, check `os.path.exists`
on the input, and hand over to `remove_screenshots_from_json`. -/
def mainScript (fs : FileSystem) (argv : List String) : ScriptResult :=
  match argv with
  | _prog :: input_file :: rest =>
      if (fs input_file).isSome then
        removeScreenshotsFromJson fs input_file rest.head?
      else
        { fs := fs, exitCode := 1, removed := none,
          stdout := ["Error: Input file " ++ input_file ++ " does not exist"] }
  | _ =>
      { fs := fs, exitCode := 1, removed := none,
        stdout := ["Usage: python remove_screenshot_data.py <input_file> [output_file]",
                   "Example: python remove_screenshot_data.py hitl/hitl-form-input.json"] }

/-! ### Specification-side definitions

These follow the wording of the specification, to be compared with the
embedded code above. -/

/-- From the spec: an entry is counted exactly when it is an object whose
`screenshot` field exists and "was non-null before replacement". -/
def specCounted : JsonValue → Bool
  | JsonValue.obj fields =>
      match lookupKey "screenshot" fields with
      | none => false
      | some JsonValue.null => false
      | some _ => true
  | _ => false

/-- From the spec: shapes passed through untouched, "scalar, array of
non-objects" — anything that is neither an object nor an array containing
an object. -/
def passThroughShape : JsonValue → Bool
  | JsonValue.obj _ => false
  | JsonValue.arr items => items.all (fun x => !x.isObj)
  | _ => true

/-- From the spec, the frame condition on one object: the output object has
the same keys in the same order, its `screenshot` key (exactly when present
in the input) now maps to null, and every key other than `screenshot`
keeps its original value. -/
def objFrameOk (fields fields' : List (String × JsonValue)) : Prop :=
  fields'.map Prod.fst = fields.map Prod.fst ∧
  lookupKey "screenshot" fields' =
    (lookupKey "screenshot" fields).map (fun _ => JsonValue.null) ∧
  ∀ k, k ≠ "screenshot" → lookupKey k fields' = lookupKey k fields

/-- From the spec, the frame condition on one array element: objects are
related by `objFrameOk` and stay objects; every non-object element is
unchanged. -/
def elemFrameOk : JsonValue → JsonValue → Prop
  | JsonValue.obj fields, JsonValue.obj fields' => objFrameOk fields fields'
  | JsonValue.obj _, _ => False
  | x, y => y = x

/-- From the spec, the frame condition on the whole document: a root array
keeps its length with elements related pointwise by `elemFrameOk`; a root
object obeys `objFrameOk`; anything else is unchanged. -/
def docFrameOk : JsonValue → JsonValue → Prop
  | JsonValue.arr items, JsonValue.arr items' => List.Forall₂ elemFrameOk items items'
  | JsonValue.arr _, _ => False
  | x, y => elemFrameOk x y

/-! ### Helper lemmas -/

theorem setScreenshotNull_cons (kv : String × JsonValue)
    (rest : List (String × JsonValue)) :
    setScreenshotNull (kv :: rest) =
      (if kv.1 = "screenshot" then ("screenshot", JsonValue.null) else kv)
        :: setScreenshotNull rest := rfl

theorem lookupKey_cons (k : String) (kv : String × JsonValue)
    (rest : List (String × JsonValue)) :
    lookupKey k (kv :: rest) =
      if kv.1 = k then some kv.2 else lookupKey k rest := rfl

theorem setScreenshotNull_keys (fields : List (String × JsonValue)) :
    (setScreenshotNull fields).map Prod.fst = fields.map Prod.fst := by
  induction fields with
  | nil => rfl
  | cons kv rest ih =>
      rw [setScreenshotNull_cons]
      by_cases h : kv.1 = "screenshot"
      · rw [if_pos h]
        simp [h, ih]
      · rw [if_neg h]
        simp [ih]

theorem lookupKey_setScreenshotNull (fields : List (String × JsonValue)) :
    lookupKey "screenshot" (setScreenshotNull fields) =
      (lookupKey "screenshot" fields).map (fun _ => JsonValue.null) := by
  induction fields with
  | nil => rfl
  | cons kv rest ih =>
      rw [setScreenshotNull_cons, lookupKey_cons, lookupKey_cons]
      by_cases h : kv.1 = "screenshot"
      · rw [if_pos h]
        simp [h]
      · rw [if_neg h]
        simp [h, ih]

theorem lookupKey_setScreenshotNull_ne (k : String) (h : k ≠ "screenshot")
    (fields : List (String × JsonValue)) :
    lookupKey k (setScreenshotNull fields) = lookupKey k fields := by
  induction fields with
  | nil => rfl
  | cons kv rest ih =>
      rw [setScreenshotNull_cons, lookupKey_cons, lookupKey_cons]
      by_cases hk : kv.1 = "screenshot"
      · rw [if_pos hk]
        have hne : ¬ ("screenshot" : String) = k := fun hc => h hc.symm
        have hne' : ¬ kv.1 = k := hk ▸ hne
        simp [hne, hne', ih]
      · rw [if_neg hk]
        by_cases hkk : kv.1 = k
        · simp [hkk]
        · simp [hkk, ih]

theorem setScreenshotNull_idem (fields : List (String × JsonValue)) :
    setScreenshotNull (setScreenshotNull fields) = setScreenshotNull fields := by
  induction fields with
  | nil => rfl
  | cons kv rest ih =>
      rw [setScreenshotNull_cons, setScreenshotNull_cons]
      by_cases h : kv.1 = "screenshot" <;> simp [h, ih]

theorem stripItem_nonobj (x : JsonValue) (h : x.isObj = false) :
    stripItem x = (x, 0) := by
  cases x <;> simp_all [JsonValue.isObj, stripItem]

theorem stripItem_count (x : JsonValue) :
    (stripItem x).2 = if specCounted x then 1 else 0 := by
  cases x with
  | obj fields =>
      cases hl : lookupKey "screenshot" fields with
      | none => simp [stripItem, specCounted, hl]
      | some v => cases v <;> simp [stripItem, specCounted, hl]
  | null => rfl
  | bool b => rfl
  | num n => rfl
  | str s => rfl
  | arr items => rfl

theorem stripItem_frame (x : JsonValue) : elemFrameOk x (stripItem x).1 := by
  cases x with
  | obj fields =>
      cases hl : lookupKey "screenshot" fields with
      | none =>
          have hs : stripItem (JsonValue.obj fields) = (JsonValue.obj fields, 0) := by
            simp [stripItem, hl]
          rw [hs]
          exact ⟨rfl, by simp [hl], fun k _ => rfl⟩
      | some v =>
          have frame : objFrameOk fields (setScreenshotNull fields) :=
            ⟨setScreenshotNull_keys fields,
             by rw [lookupKey_setScreenshotNull, hl],
             fun k hk => lookupKey_setScreenshotNull_ne k hk fields⟩
          have hs : (stripItem (JsonValue.obj fields)).1 =
              JsonValue.obj (setScreenshotNull fields) := by
            cases v <;> simp [stripItem, hl]
          rw [hs]
          exact frame
  | null => rfl
  | bool b => rfl
  | num n => rfl
  | str s => rfl
  | arr items => rfl

theorem stripItem_idem (x : JsonValue) :
    stripItem (stripItem x).1 = ((stripItem x).1, 0) := by
  cases x with
  | obj fields =>
      cases hl : lookupKey "screenshot" fields with
      | none =>
          have hs : stripItem (JsonValue.obj fields) = (JsonValue.obj fields, 0) := by
            simp [stripItem, hl]
          rw [hs, hs]
      | some v =>
          have hl' : lookupKey "screenshot" (setScreenshotNull fields) =
              some JsonValue.null := by
            rw [lookupKey_setScreenshotNull, hl]; rfl
          have hs : (stripItem (JsonValue.obj fields)).1 =
              JsonValue.obj (setScreenshotNull fields) := by
            cases v <;> simp [stripItem, hl]
          rw [hs]
          simp [stripItem, hl', setScreenshotNull_idem]
  | null => rfl
  | bool b => rfl
  | num n => rfl
  | str s => rfl
  | arr items => rfl

theorem sum_indicator_counts (items : List JsonValue) :
    (items.map (fun x => if specCounted x then (1 : Nat) else 0)).sum =
      (items.filter specCounted).length := by
  induction items with
  | nil => rfl
  | cons x rest ih =>
      rw [List.map_cons, List.sum_cons, List.filter_cons]
      by_cases h : specCounted x = true
      · simp [h, ih]
        omega
      · simp [h, ih]

theorem sum_stripItem_counts (items : List JsonValue) :
    (items.map (fun x => (stripItem x).2)).sum =
      (items.filter specCounted).length := by
  have hmap : items.map (fun x => (stripItem x).2) =
      items.map (fun x => if specCounted x then (1 : Nat) else 0) := by
    apply List.map_congr_left
    intro x _
    exact stripItem_count x
  rw [hmap, sum_indicator_counts]

theorem stripDoc_passthrough (d : JsonValue) (h : passThroughShape d = true) :
    stripDoc d = (d, 0) := by
  cases d with
  | obj fields => simp [passThroughShape] at h
  | arr items =>
      have hall : ∀ x ∈ items, x.isObj = false := by
        intro x hx
        have := (List.all_eq_true.mp h) x hx
        simpa using this
      have hmap1 : items.map (fun x => (stripItem x).1) = items := by
        have hcongr : items.map (fun x => (stripItem x).1) = items.map id := by
          apply List.map_congr_left
          intro x hx
          rw [stripItem_nonobj x (hall x hx)]
          rfl
        rw [hcongr, List.map_id]
      have hmap2 : (items.map (fun x => (stripItem x).2)).sum = 0 := by
        apply List.sum_eq_zero
        intro n hn
        obtain ⟨x, hx, hxn⟩ := List.mem_map.mp hn
        rw [← hxn, stripItem_nonobj x (hall x hx)]
      simp [stripDoc, hmap1, hmap2]
  | null => rfl
  | bool b => rfl
  | num n => rfl
  | str s => rfl

theorem stripItem_obj_shape (fields : List (String × JsonValue)) :
    ∃ fields', (stripItem (JsonValue.obj fields)).1 = JsonValue.obj fields' := by
  cases hl : lookupKey "screenshot" fields with
  | none => exact ⟨fields, by simp [stripItem, hl]⟩
  | some v => exact ⟨setScreenshotNull fields, by cases v <;> simp [stripItem, hl]⟩

/-! ### Claims -/

/-- Claim C1: for an array document the removal count equals the number of
elements that are objects holding a `screenshot` key with a non-null value
(elements whose `screenshot` is already null are not counted); for a
single-object document the count is 1 exactly when the object holds a
non-null `screenshot` key and 0 otherwise. -/
theorem claim_C1_removal_count (items : List JsonValue)
    (fields : List (String × JsonValue)) :
    (stripDoc (JsonValue.arr items)).2 = (items.filter specCounted).length ∧
    (stripDoc (JsonValue.obj fields)).2 =
      (if specCounted (JsonValue.obj fields) then 1 else 0) := by
  constructor
  · simpa [stripDoc] using sum_stripItem_counts items
  · simpa [stripDoc] using stripItem_count (JsonValue.obj fields)

/-- Claim C2: the output document has the same structure and key set as the
input, with every top-level `screenshot` key (in the root object or in each
object element of a root array) mapped to null, all other keys keeping
their values, no descent into nested values, and key order preserved. -/
theorem claim_C2_frame (d : JsonValue) : docFrameOk d (stripDoc d).1 := by
  cases d with
  | arr items =>
      show List.Forall₂ elemFrameOk items (items.map fun x => (stripItem x).1)
      induction items with
      | nil => exact List.Forall₂.nil
      | cons x rest ih => exact List.Forall₂.cons (stripItem_frame x) ih
  | obj fields => exact stripItem_frame (JsonValue.obj fields)
  | null => rfl
  | bool b => rfl
  | num n => rfl
  | str s => rfl

/-- Claim C3: a document that is neither an object nor an array containing
an object is left unchanged with removal count zero, and running the tool
on a file holding such a document succeeds (exit 0, zero removals
reported). -/
theorem claim_C3_passthrough (d : JsonValue) (h : passThroughShape d = true) :
    stripDoc d = (d, 0) ∧
    ∀ (fs : FileSystem) (path : String) (out : Option String),
      fs path = some (FileContent.jsonText d) →
      (removeScreenshotsFromJson fs path out).exitCode = 0 ∧
      (removeScreenshotsFromJson fs path out).removed = some 0 := by
  have hd := stripDoc_passthrough d h
  refine ⟨hd, ?_⟩
  intro fs path out hfs
  simp [removeScreenshotsFromJson, hfs, hd]

theorem claim_C3_passthrough_witness :
    passThroughShape (JsonValue.arr [JsonValue.num 1, JsonValue.str "a"]) = true ∧
    (stripDoc (JsonValue.arr [JsonValue.num 1, JsonValue.str "a"]) =
        (JsonValue.arr [JsonValue.num 1, JsonValue.str "a"], 0) ∧
      ∀ (fs : FileSystem) (path : String) (out : Option String),
        fs path = some (FileContent.jsonText
          (JsonValue.arr [JsonValue.num 1, JsonValue.str "a"])) →
        (removeScreenshotsFromJson fs path out).exitCode = 0 ∧
        (removeScreenshotsFromJson fs path out).removed = some 0) :=
  ⟨rfl, claim_C3_passthrough (JsonValue.arr [JsonValue.num 1, JsonValue.str "a"]) rfl⟩

/-- Claim C4: the transform is idempotent — applying it to its own output
returns that output unchanged with removal count zero. -/
theorem claim_C4_idempotent (d : JsonValue) :
    stripDoc (stripDoc d).1 = ((stripDoc d).1, 0) := by
  cases d with
  | arr items =>
      show stripDoc (JsonValue.arr (items.map fun x => (stripItem x).1)) =
        (JsonValue.arr (items.map fun x => (stripItem x).1), 0)
      have hmap1 : (items.map fun x => (stripItem x).1).map
          (fun x => (stripItem x).1) = items.map fun x => (stripItem x).1 := by
        rw [List.map_map]
        apply List.map_congr_left
        intro x _
        show (stripItem (stripItem x).1).1 = (stripItem x).1
        rw [stripItem_idem]
      have hmap2 : ((items.map fun x => (stripItem x).1).map
          (fun x => (stripItem x).2)).sum = 0 := by
        apply List.sum_eq_zero
        intro n hn
        obtain ⟨y, hy, hyn⟩ := List.mem_map.mp hn
        obtain ⟨x, _, hxy⟩ := List.mem_map.mp hy
        rw [← hyn, ← hxy, stripItem_idem]
      simp only [stripDoc]
      rw [hmap1, hmap2]
  | obj fields =>
      obtain ⟨fields', hf⟩ := stripItem_obj_shape fields
      show stripDoc (stripItem (JsonValue.obj fields)).1 =
        ((stripItem (JsonValue.obj fields)).1, 0)
      have hidem := stripItem_idem (JsonValue.obj fields)
      rw [hf] at hidem ⊢
      exact hidem
  | null => rfl
  | bool b => rfl
  | num n => rfl
  | str s => rfl

/-- Claim C9: a root array mixing object and non-object elements is still
processed element by element — each object element obeys the object frame
condition (screenshot nulled, counted when non-null), each non-object
element passes through unchanged, and the count covers exactly the counted
object elements. -/
theorem claim_C9_mixed_array (items : List JsonValue) :
    ∃ outs, (stripDoc (JsonValue.arr items)).1 = JsonValue.arr outs ∧
      List.Forall₂ (fun x y =>
        (x.isObj = false → y = x) ∧ (x.isObj = true → elemFrameOk x y))
        items outs ∧
      (stripDoc (JsonValue.arr items)).2 = (items.filter specCounted).length := by
  refine ⟨items.map (fun x => (stripItem x).1), rfl, ?_,
    by simpa [stripDoc] using sum_stripItem_counts items⟩
  induction items with
  | nil => exact List.Forall₂.nil
  | cons x rest ih =>
      refine List.Forall₂.cons ⟨?_, ?_⟩ ih
      · intro hx
        show (stripItem x).1 = x
        rw [stripItem_nonobj x hx]
      · intro _
        exact stripItem_frame x

/-- Claim C5: on a file whose content is not valid JSON the invocation
exits with status 1, reports an invalid-JSON error carrying the parser
diagnostic, and leaves every file (the default output target included)
untouched. -/
theorem claim_C5_invalid_json (fs : FileSystem) (prog input_file diag : String)
    (rest : List String)
    (h : fs input_file = some (FileContent.invalidText diag)) :
    (mainScript fs (prog :: input_file :: rest)).exitCode = 1 ∧
    (∀ p, (mainScript fs (prog :: input_file :: rest)).fs p = fs p) ∧
    (mainScript fs (prog :: input_file :: rest)).stdout =
      ["Error: Invalid JSON in " ++ input_file ++ ": " ++ diag] := by
  simp [mainScript, removeScreenshotsFromJson, h]

theorem claim_C5_invalid_json_witness :
    ((fun _ => some (FileContent.invalidText "bad")) : FileSystem) "in.json" =
        some (FileContent.invalidText "bad") ∧
    ((mainScript (fun _ => some (FileContent.invalidText "bad"))
        ["prog", "in.json"]).exitCode = 1 ∧
      (∀ p, (mainScript (fun _ => some (FileContent.invalidText "bad"))
        ["prog", "in.json"]).fs p =
          ((fun _ => some (FileContent.invalidText "bad")) : FileSystem) p) ∧
      (mainScript (fun _ => some (FileContent.invalidText "bad"))
        ["prog", "in.json"]).stdout =
        ["Error: Invalid JSON in " ++ "in.json" ++ ": " ++ "bad"]) :=
  ⟨rfl, claim_C5_invalid_json (fun _ => some (FileContent.invalidText "bad"))
    "prog" "in.json" "bad" [] rfl⟩

/-- Claim C6: when the input path does not exist the invocation exits with
status 1, prints a does-not-exist message naming the input path, and no
file is written or modified. -/
theorem claim_C6_missing_input (fs : FileSystem) (prog input_file : String)
    (rest : List String) (h : fs input_file = none) :
    (mainScript fs (prog :: input_file :: rest)).exitCode = 1 ∧
    (∀ p, (mainScript fs (prog :: input_file :: rest)).fs p = fs p) ∧
    (mainScript fs (prog :: input_file :: rest)).stdout =
      ["Error: Input file " ++ input_file ++ " does not exist"] := by
  simp [mainScript, h]

theorem claim_C6_missing_input_witness :
    ((fun _ => none) : FileSystem) "in.json" = none ∧
    ((mainScript (fun _ => none) ["prog", "in.json"]).exitCode = 1 ∧
      (∀ p, (mainScript (fun _ => none) ["prog", "in.json"]).fs p =
        ((fun _ => none) : FileSystem) p) ∧
      (mainScript (fun _ => none) ["prog", "in.json"]).stdout =
        ["Error: Input file " ++ "in.json" ++ " does not exist"]) :=
  ⟨rfl, claim_C6_missing_input (fun _ => none) "prog" "in.json" [] rfl⟩

/-- Claim C7: with the output argument omitted the transformed document is
written over the input path and no other file changes; with a distinct
output argument the result goes only to that path and the input file is
untouched. -/
theorem claim_C7_output_path (fs : FileSystem) (prog input_file out_file : String)
    (d : JsonValue) (h : fs input_file = some (FileContent.jsonText d)) :
    ((mainScript fs [prog, input_file]).fs input_file =
        some (FileContent.jsonText (stripDoc d).1) ∧
      ∀ p, p ≠ input_file → (mainScript fs [prog, input_file]).fs p = fs p) ∧
    (out_file ≠ input_file →
      (mainScript fs [prog, input_file, out_file]).fs out_file =
          some (FileContent.jsonText (stripDoc d).1) ∧
      (mainScript fs [prog, input_file, out_file]).fs input_file = fs input_file ∧
      ∀ p, p ≠ out_file → (mainScript fs [prog, input_file, out_file]).fs p = fs p) := by
  constructor
  · constructor
    · simp [mainScript, removeScreenshotsFromJson, h]
    · intro p hp
      simp [mainScript, removeScreenshotsFromJson, h, hp]
  · intro hne
    refine ⟨?_, ?_, ?_⟩
    · simp [mainScript, removeScreenshotsFromJson, h]
    · have : input_file ≠ out_file := fun hc => hne hc.symm
      simp [mainScript, removeScreenshotsFromJson, h, this]
    · intro p hp
      simp [mainScript, removeScreenshotsFromJson, h, hp]

theorem claim_C7_output_path_witness :
    ((fun _ => some (FileContent.jsonText JsonValue.null)) : FileSystem)
        "in.json" = some (FileContent.jsonText JsonValue.null) ∧
    (((mainScript (fun _ => some (FileContent.jsonText JsonValue.null))
          ["prog", "in.json"]).fs "in.json" =
        some (FileContent.jsonText (stripDoc JsonValue.null).1) ∧
      ∀ p, p ≠ "in.json" →
        (mainScript (fun _ => some (FileContent.jsonText JsonValue.null))
          ["prog", "in.json"]).fs p =
          ((fun _ => some (FileContent.jsonText JsonValue.null)) : FileSystem) p) ∧
    ("out.json" ≠ "in.json" →
      (mainScript (fun _ => some (FileContent.jsonText JsonValue.null))
          ["prog", "in.json", "out.json"]).fs "out.json" =
        some (FileContent.jsonText (stripDoc JsonValue.null).1) ∧
      (mainScript (fun _ => some (FileContent.jsonText JsonValue.null))
          ["prog", "in.json", "out.json"]).fs "in.json" =
        ((fun _ => some (FileContent.jsonText JsonValue.null)) : FileSystem) "in.json" ∧
      ∀ p, p ≠ "out.json" →
        (mainScript (fun _ => some (FileContent.jsonText JsonValue.null))
          ["prog", "in.json", "out.json"]).fs p =
          ((fun _ => some (FileContent.jsonText JsonValue.null)) : FileSystem) p)) :=
  ⟨rfl, claim_C7_output_path (fun _ => some (FileContent.jsonText JsonValue.null))
    "prog" "in.json" "out.json" JsonValue.null rfl⟩

/-- Claim C8: the invocation exits 0 exactly on successful runs — an input
argument is present and names an existing file holding valid JSON —
regardless of the removal count, and exits 1 in every other case (missing
argument, missing file, invalid JSON). -/
theorem claim_C8_exit_codes (fs : FileSystem) (argv : List String) :
    ((mainScript fs argv).exitCode = 0 ∨ (mainScript fs argv).exitCode = 1) ∧
    ((mainScript fs argv).exitCode = 0 ↔
      ∃ prog input_file rest d, argv = prog :: input_file :: rest ∧
        fs input_file = some (FileContent.jsonText d)) := by
  match argv with
  | [] => simp [mainScript]
  | [prog] => simp [mainScript]
  | prog :: input_file :: rest =>
      cases hfs : fs input_file with
      | none => simp [mainScript, hfs]
      | some content =>
          cases content with
          | jsonText d =>
              constructor
              · left
                simp [mainScript, removeScreenshotsFromJson, hfs]
              · constructor
                · intro _
                  exact ⟨prog, input_file, rest, d, rfl, hfs⟩
                · intro _
                  simp [mainScript, removeScreenshotsFromJson, hfs]
          | invalidText diag =>
              constructor
              · right
                simp [mainScript, removeScreenshotsFromJson, hfs]
              · constructor
                · intro hzero
                  exfalso
                  simp [mainScript, removeScreenshotsFromJson, hfs] at hzero
                · intro hex
                  obtain ⟨prog', input', rest', d', heq, hd⟩ := hex
                  injection heq with h1 h2
                  injection h2 with h2a h2b
                  rw [← h2a] at hd
                  rw [hfs] at hd
                  simp at hd

/-- Claim C10: the run is deterministic and depends only on the input
file's parsed content and the supplied paths — two filesystems agreeing on
the input path yield the same exit code, removal count, printed report,
and (on success) the same written output document. -/
theorem claim_C10_deterministic (fs1 fs2 : FileSystem) (input_file : String)
    (output_file : Option String)
    (h : fs1 input_file = fs2 input_file) :
    (removeScreenshotsFromJson fs1 input_file output_file).exitCode =
      (removeScreenshotsFromJson fs2 input_file output_file).exitCode ∧
    (removeScreenshotsFromJson fs1 input_file output_file).removed =
      (removeScreenshotsFromJson fs2 input_file output_file).removed ∧
    (removeScreenshotsFromJson fs1 input_file output_file).stdout =
      (removeScreenshotsFromJson fs2 input_file output_file).stdout ∧
    ((removeScreenshotsFromJson fs1 input_file output_file).exitCode = 0 →
      (removeScreenshotsFromJson fs1 input_file output_file).fs
          (output_file.getD input_file) =
        (removeScreenshotsFromJson fs2 input_file output_file).fs
          (output_file.getD input_file)) := by
  cases hc : fs1 input_file with
  | none =>
      have hc2 : fs2 input_file = none := h ▸ hc
      simp [removeScreenshotsFromJson, hc, hc2]
  | some content =>
      have hc2 : fs2 input_file = some content := h ▸ hc
      cases content with
      | jsonText d => simp [removeScreenshotsFromJson, hc, hc2]
      | invalidText diag => simp [removeScreenshotsFromJson, hc, hc2]

theorem claim_C10_deterministic_witness :
    ((fun _ => some (FileContent.jsonText JsonValue.null)) : FileSystem)
        "in.json" =
      ((fun p => if p = "in.json" then some (FileContent.jsonText JsonValue.null)
          else none) : FileSystem) "in.json" ∧
    ((removeScreenshotsFromJson (fun _ => some (FileContent.jsonText JsonValue.null))
        "in.json" none).exitCode =
      (removeScreenshotsFromJson
        (fun p => if p = "in.json" then some (FileContent.jsonText JsonValue.null)
          else none) "in.json" none).exitCode ∧
    (removeScreenshotsFromJson (fun _ => some (FileContent.jsonText JsonValue.null))
        "in.json" none).removed =
      (removeScreenshotsFromJson
        (fun p => if p = "in.json" then some (FileContent.jsonText JsonValue.null)
          else none) "in.json" none).removed ∧
    (removeScreenshotsFromJson (fun _ => some (FileContent.jsonText JsonValue.null))
        "in.json" none).stdout =
      (removeScreenshotsFromJson
        (fun p => if p = "in.json" then some (FileContent.jsonText JsonValue.null)
          else none) "in.json" none).stdout ∧
    ((removeScreenshotsFromJson (fun _ => some (FileContent.jsonText JsonValue.null))
        "in.json" none).exitCode = 0 →
      (removeScreenshotsFromJson (fun _ => some (FileContent.jsonText JsonValue.null))
          "in.json" none).fs ((none : Option String).getD "in.json") =
        (removeScreenshotsFromJson
          (fun p => if p = "in.json" then some (FileContent.jsonText JsonValue.null)
            else none) "in.json" none).fs ((none : Option String).getD "in.json"))) :=
  ⟨by simp, claim_C10_deterministic
    (fun _ => some (FileContent.jsonText JsonValue.null))
    (fun p => if p = "in.json" then some (FileContent.jsonText JsonValue.null)
      else none)
    "in.json" none (by simp)⟩
